import Mathlib

/-!
Shallow embedding of the document persistence and conflict-resolution engine
of this repository: the document context (docregistry `context.ts`), the
autosave scheduler (`SaveHandler`) and the document manager's context table.

Conventions of the embedding:
* JavaScript date strings (`last_modified`, `created`) are modelled as
  `Option Int` (milliseconds since the epoch); `none` stands for an absent or
  empty (falsy) value.
* Asynchronous storage-client calls and the conflict dialog are modelled as an
  environment `Env` holding the response each call would produce; the
  cooperative single-threaded flow of the promise chains is straight-line
  state passing.
* Observable effects (writes issued to the storage client, checkpoints
  created, dialogs shown, signals emitted) are collected in an `Effects`
  record.
-/

namespace JLab

/-- A contents model as returned by the storage client (`Contents.IModel`):
path, name, type, optional content, writable flag, timestamps, mimetype and
format. -/
structure ContentsModel where
  path : String
  name : String
  type : String
  content : Option String
  writable : Bool
  created : Option Int
  last_modified : Option Int
  mimetype : String
  format : String
  deriving Repr, DecidableEq

/-- A checkpoint model (`Contents.ICheckpointModel`): server-assigned id and
timestamp. -/
structure Checkpoint where
  id : String
  last_modified : Option Int
  deriving Repr, DecidableEq

/-- A rejected promise's error: `status` is `err.response.status` when the
error carries a response (`none` when `err.response` is absent). -/
structure JsError where
  status : Option Nat
  message : String
  deriving Repr, DecidableEq

/-- The three buttons of the time-conflict dialog in `_timeConflict`:
`Dialog.cancelButton()`, the `REVERT` ok-button and the `OVERWRITE`
warn-button. -/
inductive ConflictChoice where
  | cancel
  | revert
  | overwrite
  deriving Repr, DecidableEq

/-- The state of one document context (`Private.Context`): its path, the
session's path and name, the cached contents model, the checkpoint guard, the
disposal flag, the collaborative-store flag of its model, and the document
model's text content and dirty flag. -/
structure ContextState where
  path : String
  sessionPath : String
  sessionName : String
  contentsModel : ContentsModel
  hasCheckpointed : Bool
  isDisposed : Bool
  isCollaborative : Bool
  modelContent : String
  dirty : Bool
  deriving Repr, DecidableEq

/-- Observable effects of one operation: the `manager.save` calls issued
(path and serialized content), the number of checkpoints successfully
created, the number of time-conflict dialogs shown, the payloads emitted on
`fileChanged`, the paths emitted on `pathChanged`, and the titles of error
dialogs opened by `_handleError`. -/
structure Effects where
  writes : List (String × String) := []
  checkpointsCreated : Nat := 0
  conflictDialogs : Nat := 0
  fileChangedEmits : List ContentsModel := []
  pathChangedEmits : List String := []
  errorTitles : List String := []
  deriving Repr, DecidableEq

/-- Sequential composition of effects. -/
def Effects.app (a b : Effects) : Effects :=
  { writes := a.writes ++ b.writes
    checkpointsCreated := a.checkpointsCreated + b.checkpointsCreated
    conflictDialogs := a.conflictDialogs + b.conflictDialogs
    fileChangedEmits := a.fileChangedEmits ++ b.fileChangedEmits
    pathChangedEmits := a.pathChangedEmits ++ b.pathChangedEmits
    errorTitles := a.errorTitles ++ b.errorTitles }

instance instDecEqExcept {ε α : Type} [DecidableEq ε] [DecidableEq α] :
    DecidableEq (Except ε α) := fun a b =>
  match a, b with
  | .error e₁, .error e₂ =>
    if h : e₁ = e₂ then isTrue (by rw [h])
    else isFalse (fun hc => h (Except.error.inj hc))
  | .error _, .ok _ => isFalse Except.noConfusion
  | .ok _, .error _ => isFalse Except.noConfusion
  | .ok a₁, .ok a₂ =>
    if h : a₁ = a₂ then isTrue (by rw [h])
    else isFalse (fun hc => h (Except.ok.inj hc))

/-- The environment of one `save()`/`revert()` round: the outcome each
storage-client call would have, and the button the user would press if the
time-conflict dialog is shown. -/
structure Env where
  fetchMeta : Except JsError ContentsModel
  listCheckpoints : Except JsError (List Checkpoint)
  createCheckpoint : Except JsError Checkpoint
  saveResult : Except JsError ContentsModel
  revertFetch : Except JsError ContentsModel
  dialogChoice : ConflictChoice
  deriving Repr, DecidableEq

/-- A failure travelling down the save promise chain: either a storage-client
error or the `Promise.reject('Disposed')` used after a disposal check. -/
inductive SaveErr where
  | jsError (e : JsError)
  | disposed
  deriving Repr, DecidableEq

/-- Modelled from the spec: `ContentsManager.localPath` of the services
package (not part of this repository's sources). In the default drive the
local path equals the path. -/
def localPath (p : String) : String := p

/-- Modelled from the spec: `PathExt.basename` of the coreutils package (not
part of this repository's sources): the last `/`-separated segment of a
path. -/
def basename (p : String) : String := (p.splitOn "/").getLastD p

/-- The content-free copy of a contents model built at the top of
`_updateContentsModel`: every field is kept except `content`, which is set to
`undefined`. -/
def contentFreeCopy (m : ContentsModel) : ContentsModel :=
  { path := m.path
    name := m.name
    type := m.type
    content := none
    writable := m.writable
    created := m.created
    last_modified := m.last_modified
    mimetype := m.mimetype
    format := m.format }

/-- Embedding of `Private.Context._updateContentsModel`: replace the cached contents model
by a content-free copy of `m`, and emit `fileChanged` when the previously
cached `last_modified` was falsy or differs from the new one. Returns the new
state and the list of `fileChanged` payloads emitted. -/
def updateContentsModel (st : ContextState) (m : ContentsModel) :
    ContextState × List ContentsModel :=
  let newModel := contentFreeCopy m
  let mod := st.contentsModel.last_modified
  let st' := { st with contentsModel := newModel }
  if mod = none ∨ newModel.last_modified ≠ mod then
    (st', [newModel])
  else
    (st', [])

/-- The argument of a `fileChanged` notification from the contents manager
(`Contents.IChangedArgs`): change type, old value's path and new value. -/
structure FileChangeArgs where
  type : String
  oldPath : Option String
  newValue : Option ContentsModel
  deriving Repr, DecidableEq

/-- Embedding of `Private.Context._onFileChanged`: on a rename notification whose old path
matches the context's path and whose new path is non-empty, re-point the
session, update the path and the cached contents model, reset the checkpoint
guard and emit `pathChanged`. Returns the new state, the `fileChanged`
payloads emitted and the `pathChanged` payloads emitted. -/
def onFileChanged (st : ContextState) (change : FileChangeArgs) :
    ContextState × List ContentsModel × List String :=
  if change.type ≠ "rename" then
    (st, [], [])
  else
    match change.newValue with
    | none => (st, [], [])
    | some nv =>
      if nv.path ≠ "" ∧ change.oldPath = some st.path then
        let st₁ := { st with
          sessionPath := nv.path
          sessionName := basename (localPath nv.path)
          path := nv.path }
        let st₂ := (updateContentsModel st₁ nv).1
        let fEmits := (updateContentsModel st₁ nv).2
        let st₃ := { st₂ with hasCheckpointed := false }
        (st₃, fEmits, [st₃.path])
      else
        (st, [], [])

/-- Embedding of `Private.Context._onSessionChanged`: on a session property change of type
`path` whose session path differs from the context's path, update the path,
reset the checkpoint guard and emit `pathChanged`. Returns the new state and
the `pathChanged` payloads emitted. -/
def onSessionChanged (st : ContextState) (ptype : String) :
    ContextState × List String :=
  if ptype ≠ "path" then
    (st, [])
  else
    let path := st.sessionPath
    if path ≠ st.path then
      ({ st with path := path, hasCheckpointed := false }, [path])
    else
      (st, [])

/-- The conflict test of `_maybeSave`:
`modified && (tDisk.getTime() - tClient.getTime()) > 500`. A falsy client
timestamp or an invalid (absent) disk timestamp never conflicts. -/
def conflictCheck (client disk : Option Int) : Bool :=
  match client with
  | none => false
  | some t =>
    match disk with
    | none => false
    | some t' => decide (t' - t > 500)

/-- The `content.replace(/\r\n|\r/g, '\n')` conversion of `updateModel`:
each `\r\n` pair and each remaining lone `\r` becomes `\n`. -/
def convertLineEndings : List Char → List Char
  | [] => []
  | '\r' :: '\n' :: rest => '\n' :: convertLineEndings rest
  | '\r' :: rest => '\n' :: convertLineEndings rest
  | c :: rest => c :: convertLineEndings rest

/-- String form of `convertLineEndings`. -/
def convertLineEndingsStr (s : String) : String :=
  String.mk (convertLineEndings s.data)

/-- Embedding of `Private.updateModel`: populate the document model from fetched contents.
In `json` format the content is deserialized as is; in text format the line
endings are converted first, and the model is marked dirty exactly when a
conversion occurred (`content.indexOf('\r') !== -1`). -/
def updateModel (st : ContextState) (contents : ContentsModel) : ContextState :=
  if contents.format = "json" then
    { st with modelContent := contents.content.getD "", dirty := false }
  else
    let content := contents.content.getD ""
    if content.data.contains '\r' then
      { st with modelContent := convertLineEndingsStr content, dirty := true }
    else
      { st with modelContent := content, dirty := false }

/-- Embedding of `Private.loadModel` followed by `Private.Context.revert`'s continuation:
fetch full contents, populate the model (`updateModel`, which runs before the
disposal check), then, unless disposed, update the cached contents model; any
error is reported under the title `File Load Error` and the promise still
resolves. Returns the new state and the effects. -/
def ctxRevert (st : ContextState) (env : Env) : ContextState × Effects :=
  match env.revertFetch with
  | .ok contents =>
    let st₁ := updateModel st contents
    if st₁.isDisposed then
      (st₁, {})
    else
      (
        (updateContentsModel st₁ contents).1,
        { fileChangedEmits := (updateContentsModel st₁ contents).2 })
  | .error _ => (st, { errorTitles := ["File Load Error"] })

/-- Embedding of `Private.Context._maybeCheckpoint`: skip when the file is not writable or
a checkpoint has already been created; otherwise list the checkpoints and, if
the context is not disposed, the list is empty and the file is still
writable, create one checkpoint and set the guard. A 403 from either call is
swallowed; any other error propagates. Returns the new state and the number
of checkpoints created, or the propagated error. -/
def maybeCheckpoint (st : ContextState) (env : Env) :
    Except JsError (ContextState × Nat) :=
  if !st.contentsModel.writable || st.hasCheckpointed then
    .ok (st, 0)
  else
    match env.listCheckpoints with
    | .ok checkpoints =>
      if !st.isDisposed && checkpoints.length == 0 && st.contentsModel.writable then
        match env.createCheckpoint with
        | .ok _ => .ok ({ st with hasCheckpointed := true }, 1)
        | .error e => if e.status = some 403 then .ok (st, 0) else .error e
      else
        .ok (st, 0)
    | .error e => if e.status = some 403 then .ok (st, 0) else .error e

/-- Embedding of `Private.Context._save`: `_maybeCheckpoint` then `Private.saveModel`
(which serializes the model and calls `manager.save(path, options)`). Returns
the new state, the effects, and either the contents model the write resolved
with or the propagated error. The write to `manager.save` is recorded whether
or not it succeeds; a checkpoint failure aborts before any write. -/
def ctxSaveInner (st : ContextState) (env : Env) :
    ContextState × Effects × Except SaveErr (Option ContentsModel) :=
  match maybeCheckpoint st env with
  | .error e => (st, {}, .error (.jsError e))
  | .ok (st₁, n) =>
    match env.saveResult with
    | .ok m =>
      (st₁, { writes := [(st₁.path, st₁.modelContent)], checkpointsCreated := n },
        .ok (some m))
    | .error e =>
      (st₁, { writes := [(st₁.path, st₁.modelContent)], checkpointsCreated := n },
        .error (.jsError e))

/-- Embedding of `Private.Context._timeConflict`: show the three-button dialog (recorded
in `conflictDialogs`), then reject when disposed, `_save` on OVERWRITE,
`revert()` resolving with the remote metadata on REVERT, and resolve with
`undefined` (modelled as `none`) when the dialog is cancelled. -/
def timeConflict (st : ContextState) (env : Env) (remote : ContentsModel) :
    ContextState × Effects × Except SaveErr (Option ContentsModel) :=
  let dialog : Effects := { conflictDialogs := 1 }
  if st.isDisposed then
    (st, dialog, .error .disposed)
  else
    match env.dialogChoice with
    | .overwrite =>
      ((ctxSaveInner st env).1, dialog.app (ctxSaveInner st env).2.1,
        (ctxSaveInner st env).2.2)
    | .revert =>
      ((ctxRevert st env).1, dialog.app (ctxRevert st env).2, .ok (some remote))
    | .cancel => (st, dialog, .ok none)

/-- Embedding of `Private.Context._maybeSave`: fetch the remote metadata without content;
on success reject when disposed, declare a conflict when the client's cached
`last_modified` is truthy and the disk timestamp is more than 500 ms ahead,
and `_save` otherwise; a 404 fetch failure also proceeds to `_save`, any
other fetch failure propagates. -/
def maybeSave (st : ContextState) (env : Env) :
    ContextState × Effects × Except SaveErr (Option ContentsModel) :=
  match env.fetchMeta with
  | .ok m =>
    if st.isDisposed then
      (st, {}, .error .disposed)
    else if conflictCheck st.contentsModel.last_modified m.last_modified then
      timeConflict st env m
    else
      ctxSaveInner st env
  | .error e =>
    if e.status = some 404 then
      ctxSaveInner st env
    else
      (st, {}, .error (.jsError e))

/-- Embedding of `Private.Context.save`: `_maybeSave` for non-collaborative models and
`_save` for collaborative ones; on resolution, unless disposed, clear the
dirty flag and call `_updateContentsModel` on the resolved value — a value of
`undefined` (the cancelled conflict dialog) makes `_updateContentsModel`
throw, which the final catch reports as `File Save Error`; any rejection is
reported under the same title. Returns the new state and the effects. -/
def saveBranch (st : ContextState) (env : Env) :
    ContextState × Effects × Except SaveErr (Option ContentsModel) :=
  if !st.isCollaborative then maybeSave st env else ctxSaveInner st env

/-- The continuation of `Private.Context.save` around `saveBranch` (see the
comment there). -/
def ctxSave (st : ContextState) (env : Env) : ContextState × Effects :=
  let st₁ := (saveBranch st env).1
  let eff := (saveBranch st env).2.1
  match (saveBranch st env).2.2 with
  | .error _ => (st₁, eff.app { errorTitles := ["File Save Error"] })
  | .ok value =>
    if st₁.isDisposed then
      (st₁, eff)
    else
      let st₂ := { st₁ with dirty := false }
      match value with
      | none => (st₂, eff.app { errorTitles := ["File Save Error"] })
      | some m =>
        ((updateContentsModel st₂ m).1,
          eff.app { fileChangedEmits := (updateContentsModel st₂ m).2 })

/-- Iterated `save()`: run one `ctxSave` per environment in the list,
threading the state, and total the number of checkpoints created. -/
def ctxSaveN : ContextState → List Env → ContextState × Nat
  | st, [] => (st, 0)
  | st, env :: rest =>
    ((ctxSaveN (ctxSave st env).1 rest).1,
      (ctxSave st env).2.checkpointsCreated + (ctxSaveN (ctxSave st env).1 rest).2)

/-- The state of the autosave `SaveHandler`: the adaptive interval, its
floor, and the activity, dialog and disposal flags (milliseconds). -/
structure SaveHandlerState where
  minInterval : Nat
  interval : Nat
  isActive : Bool
  inDialog : Bool
  isDisposed : Bool
  deriving Repr, DecidableEq

/-- The `SaveHandler` constructor: `interval = options.saveInterval || 120`
seconds, so both the floor and the initial interval are that value times
1000 ms; the handler starts inactive, with no dialog shown and not
disposed. -/
def saveHandlerInit (saveInterval : Option Nat) : SaveHandlerState :=
  let interval :=
    match saveInterval with
    | some n => if n = 0 then 120 else n
    | none => 120
  { minInterval := interval * 1000
    interval := interval * 1000
    isActive := false
    inDialog := false
    isDisposed := false }

/-- The `_multiplier` field of `SaveHandler`. -/
def saveHandlerMultiplier : Nat := 10

/-- Embedding of `SaveHandler._save`, the autosave timeout body: bail when the model is
not dirty, is read-only, or a dialog is showing; otherwise run `save()` and,
when it succeeds and the handler is not disposed, set
`interval = max(multiplier * duration, minInterval)` from the measured
wall-clock duration; a failed save only logs. -/
def saveHandlerOnTimeout (hs : SaveHandlerState) (dirty readOnly : Bool)
    (saveSucceeds : Bool) (duration : Nat) : SaveHandlerState :=
  if !dirty || readOnly || hs.inDialog then
    hs
  else if saveSucceeds then
    if hs.isDisposed then
      hs
    else
      { hs with interval := max (saveHandlerMultiplier * duration) hs.minInterval }
  else
    hs

/-- The document manager's context table, abstracted to the
`(path, model-factory name)` key of each live context, in insertion order. -/
structure ManagerState where
  contexts : List (String × String)
  deriving Repr, DecidableEq

/-- Embedding of `DocumentManager._findContext`: the first context whose factory name and
path both match. -/
def findContext (m : ManagerState) (path factoryName : String) :
    Option (String × String) :=
  m.contexts.find? (fun c => c.2 == factoryName && c.1 == path)

/-- Embedding of `DocumentManager._createContext`: push a new context for the key onto the
table. -/
def createManagerContext (m : ManagerState) (path factoryName : String) :
    ManagerState :=
  { m with contexts := m.contexts ++ [(path, factoryName)] }

/-- The `which` argument of `DocumentManager._createOrOpenDocument`. -/
inductive DocWhich where
  | openDoc
  | createDoc
  deriving Repr, DecidableEq

/-- The context-table part of `DocumentManager._createOrOpenDocument`: for
`open`, reuse an existing context for `(path, factory.name)` when the lookup
finds one and create (then load) one otherwise; for `create`, always create a
new context (and immediately save it). -/
def createOrOpenDocument (m : ManagerState) (which : DocWhich)
    (path factoryName : String) : ManagerState :=
  match which with
  | .openDoc =>
    match findContext m path factoryName with
    | some _ => m
    | none => createManagerContext m path factoryName
  | .createDoc => createManagerContext m path factoryName

/-! Concrete sample data used to instantiate the theorems below. -/

/-- A sample contents model for a plain text file. -/
def sampleModel : ContentsModel :=
  { path := "notes.txt"
    name := "notes.txt"
    type := "file"
    content := none
    writable := true
    created := some 0
    last_modified := some 0
    mimetype := "text/plain"
    format := "text" }

/-- A sample dirty, writable, non-collaborative context that has already
checkpointed. -/
def sampleState : ContextState :=
  { path := "notes.txt"
    sessionPath := "notes.txt"
    sessionName := "notes.txt"
    contentsModel := sampleModel
    hasCheckpointed := true
    isDisposed := false
    isCollaborative := false
    modelContent := "hello"
    dirty := true }

/-- The sample remote metadata, 600 ms ahead of the client's. -/
def remote600 : ContentsModel := { sampleModel with last_modified := some 600 }

/-- A sample benign environment whose metadata fetch reports `remote600`. -/
def sampleEnv : Env :=
  { fetchMeta := .ok remote600
    listCheckpoints := .ok []
    createCheckpoint := .ok { id := "c1", last_modified := some 0 }
    saveResult := .ok { sampleModel with last_modified := some 2000 }
    revertFetch :=
      .ok { sampleModel with content := some "disk content", last_modified := some 2000 }
    dialogChoice := .overwrite }

/-! Helper lemmas about the embedding. -/

theorem contentFreeCopy_last_modified (m : ContentsModel) :
    (contentFreeCopy m).last_modified = m.last_modified := rfl

theorem contentFreeCopy_content (m : ContentsModel) :
    (contentFreeCopy m).content = none := rfl

theorem updateContentsModel_fst (st : ContextState) (m : ContentsModel) :
    (updateContentsModel st m).1
      = { st with contentsModel := contentFreeCopy m } := by
  unfold updateContentsModel
  dsimp only
  split <;> rfl

theorem updateContentsModel_snd (st : ContextState) (m : ContentsModel) :
    (updateContentsModel st m).2
      = if st.contentsModel.last_modified = none
          ∨ m.last_modified ≠ st.contentsModel.last_modified
        then [contentFreeCopy m] else [] := by
  unfold updateContentsModel contentFreeCopy
  dsimp only
  split <;> rfl

/-- C10 -- Whenever the context applies new remote metadata through
`_updateContentsModel`, it replaces the cached contents model with a
content-free copy of that metadata, and emits `fileChanged` exactly when the
previously cached `last_modified` was absent or differs from the new
metadata's `last_modified`; an update carrying an identical `last_modified`
replaces the cache silently. -/
theorem update_contents_model_emit_iff (st : ContextState) (m : ContentsModel) :
    (updateContentsModel st m).1.contentsModel = contentFreeCopy m
    ∧ (updateContentsModel st m).1.contentsModel.content = none
    ∧ ((updateContentsModel st m).2 ≠ []
        ↔ st.contentsModel.last_modified = none
          ∨ m.last_modified ≠ st.contentsModel.last_modified)
    ∧ (st.contentsModel.last_modified ≠ none
        ∧ m.last_modified = st.contentsModel.last_modified
        → (updateContentsModel st m).2 = []) := by
  refine ⟨by rw [updateContentsModel_fst], by rw [updateContentsModel_fst]; rfl, ?_, ?_⟩
  · rw [updateContentsModel_snd]
    by_cases h : st.contentsModel.last_modified = none
      ∨ m.last_modified ≠ st.contentsModel.last_modified
    · simp [h]
    · simp [h]
  · rintro ⟨h₁, h₂⟩
    rw [updateContentsModel_snd, if_neg (not_or.mpr ⟨h₁, not_not.mpr h₂⟩)]

/-- Instantiation of `update_contents_model_emit_iff` at concrete data: an
update carrying the same timestamp is silent, a newer one emits. -/
theorem update_contents_model_emit_iff_instance :
    (updateContentsModel sampleState sampleModel).2 = []
    ∧ (updateContentsModel sampleState remote600).2 ≠ [] := by
  constructor
  · exact (update_contents_model_emit_iff sampleState sampleModel).2.2.2
      ⟨by decide, by decide⟩
  · exact (update_contents_model_emit_iff sampleState remote600).2.2.1.mpr
      (by decide)

/-- The sample state as seen after its session renamed itself to `b.txt`:
the session path differs from the context path. -/
def sessionMovedState : ContextState :=
  { sampleState with
    path := "a.txt"
    sessionPath := "b.txt"
    contentsModel := { sampleModel with path := "a.txt" } }

/-- C9 counterexample -- a session property change of type `path` updates the
context's path but leaves the cached contents model untouched (it still
records the old path), refuting the claim that both the path and the cached
metadata are updated. -/
theorem session_path_change_stale_metadata :
    (onSessionChanged sessionMovedState "path").1.path = "b.txt"
    ∧ (onSessionChanged sessionMovedState "path").1.contentsModel
        = sessionMovedState.contentsModel
    ∧ (onSessionChanged sessionMovedState "path").1.contentsModel.path
        = "a.txt" := by
  refine ⟨rfl, rfl, rfl⟩

/-- C9 (amended) -- a session-originated path change (type `path`, session
path different from the context's path) updates the context's path, resets
`hasCheckpointed` and emits `pathChanged`; the cached contents model is left
unchanged. -/
theorem session_path_change_amended (st : ContextState)
    (h : st.sessionPath ≠ st.path) :
    onSessionChanged st "path"
      = ({ st with path := st.sessionPath, hasCheckpointed := false },
         [st.sessionPath])
    ∧ (onSessionChanged st "path").1.contentsModel = st.contentsModel := by
  constructor
  · simp [onSessionChanged, h]
  · simp [onSessionChanged, h]

/-- Instantiation of `session_path_change_amended` at the sample moved
state. -/
theorem session_path_change_amended_instance :
    onSessionChanged sessionMovedState "path"
      = ({ sessionMovedState with path := "b.txt", hasCheckpointed := false },
         ["b.txt"])
    ∧ (onSessionChanged sessionMovedState "path").1.contentsModel
        = sessionMovedState.contentsModel := by
  have h := session_path_change_amended sessionMovedState (by decide)
  exact h

/-- A manager table already holding a context for `("a.txt", "text")`. -/
def collidingTable : ManagerState := { contexts := [("a.txt", "text")] }

/-- C4 counterexample -- with a live context for `("a.txt", "text")` in the
table (which the lookup would find), the `create` branch of
`_createOrOpenDocument` still creates a second context for the same key, so a
colliding key is reachable through `createNew`. -/
theorem create_collision_reachable :
    findContext collidingTable "a.txt" "text" = some ("a.txt", "text")
    ∧ (createOrOpenDocument collidingTable .createDoc "a.txt" "text").contexts
        = [("a.txt", "text"), ("a.txt", "text")] := by
  refine ⟨rfl, rfl⟩

/-- C4 (amended) -- for `open` a lookup precedes creation: an existing
context for the key is reused (the table is unchanged) and key-uniqueness of
the table is preserved; for `create` (hence `createNew`) a new context is
always created with no lookup, so a colliding key is reachable. -/
theorem context_table_dedup_amended (m : ManagerState) (path factoryName : String) :
    (findContext m path factoryName ≠ none →
      createOrOpenDocument m .openDoc path factoryName = m)
    ∧ (findContext m path factoryName = none →
      (createOrOpenDocument m .openDoc path factoryName).contexts
        = m.contexts ++ [(path, factoryName)])
    ∧ (m.contexts.Nodup →
      (createOrOpenDocument m .openDoc path factoryName).contexts.Nodup)
    ∧ (createOrOpenDocument m .createDoc path factoryName).contexts
        = m.contexts ++ [(path, factoryName)] := by
  refine ⟨?_, ?_, ?_, rfl⟩
  · intro h
    unfold createOrOpenDocument
    cases hf : findContext m path factoryName with
    | none => exact absurd hf h
    | some c => rfl
  · intro h
    unfold createOrOpenDocument
    rw [h]
    rfl
  · intro hnd
    unfold createOrOpenDocument
    cases hf : findContext m path factoryName with
    | some c => exact hnd
    | none =>
      simp only [createManagerContext, List.nodup_append]
      refine ⟨hnd, List.nodup_singleton _, ?_⟩
      intro a ha hb
      simp only [List.mem_singleton] at hb
      subst hb
      have : (findContext m path factoryName).isSome := by
        unfold findContext
        rw [List.find?_isSome]
        exact ⟨(path, factoryName), ha, by simp⟩
      rw [hf] at this
      simp at this

/-- Instantiation of `context_table_dedup_amended` at the sample table: the
open branch reuses the existing context. -/
theorem context_table_dedup_amended_instance :
    createOrOpenDocument collidingTable .openDoc "a.txt" "text"
      = collidingTable := by
  exact (context_table_dedup_amended collidingTable "a.txt" "text").1 (by decide)

/-- C6 -- after a successful autosave-triggered save of wall-clock duration
`d` ms (handler not disposed, no dialog open, model dirty and writable), the
scheduler sets its interval to `max(10 * d, minInterval)`; the constructor's
default floor is 120000 ms, so a 50 s save yields 500000 ms and a 1 s save
yields 120000 ms. -/
theorem autosave_backoff (hs : SaveHandlerState) (d : Nat)
    (hdlg : hs.inDialog = false) (hdis : hs.isDisposed = false) :
    (saveHandlerOnTimeout hs true false true d).interval
      = max (10 * d) hs.minInterval
    ∧ (saveHandlerInit none).minInterval = 120000
    ∧ (saveHandlerOnTimeout (saveHandlerInit none) true false true 50000).interval
        = 500000
    ∧ (saveHandlerOnTimeout (saveHandlerInit none) true false true 1000).interval
        = 120000 := by
  refine ⟨?_, by decide, by decide, by decide⟩
  simp [saveHandlerOnTimeout, hdlg, hdis, saveHandlerMultiplier]

/-- Instantiation of `autosave_backoff` at the default handler and a 50 s
save. -/
theorem autosave_backoff_instance :
    (saveHandlerOnTimeout (saveHandlerInit none) true false true 50000).interval
      = max (10 * 50000) (saveHandlerInit none).minInterval := by
  exact (autosave_backoff (saveHandlerInit none) 50000 rfl rfl).1

theorem convertLineEndings_no_cr (l : List Char) : '\r' ∉ convertLineEndings l := by
  induction l using convertLineEndings.induct with
  | case1 => simp [convertLineEndings.eq_1]
  | case2 rest ih =>
    rw [convertLineEndings.eq_2]
    simp only [List.mem_cons, not_or]
    exact ⟨by decide, ih⟩
  | case3 rest h ih =>
    rw [convertLineEndings.eq_3 rest h]
    simp only [List.mem_cons, not_or]
    exact ⟨by decide, ih⟩
  | case4 c rest h1 h2 ih =>
    rw [convertLineEndings.eq_4 c rest h1 h2]
    simp only [List.mem_cons, not_or]
    exact ⟨fun hc => h2 hc.symm, ih⟩

theorem convertLineEndings_id (l : List Char) : '\r' ∉ l → convertLineEndings l = l := by
  induction l using convertLineEndings.induct with
  | case1 => intro _; rfl
  | case2 rest ih =>
    intro h
    exact absurd (List.mem_cons_self _ _) h
  | case3 rest h3 ih =>
    intro h
    exact absurd (List.mem_cons_self _ _) h
  | case4 c rest h1 h2 ih =>
    intro h
    rw [convertLineEndings.eq_4 c rest h1 h2,
      ih (fun hm => h (List.mem_cons_of_mem _ hm))]

theorem updateModel_text (st : ContextState) (contents : ContentsModel) (s : String)
    (hfmt : contents.format ≠ "json") (hc : contents.content = some s) :
    updateModel st contents
      = if s.data.contains '\r' then
          { st with modelContent := convertLineEndingsStr s, dirty := true }
        else
          { st with modelContent := s, dirty := false } := by
  unfold updateModel
  rw [if_neg hfmt, hc]
  rfl

theorem ctxRevert_model (st : ContextState) (env : Env) (contents : ContentsModel)
    (hfetch : env.revertFetch = .ok contents) :
    (ctxRevert st env).1.modelContent = (updateModel st contents).modelContent
    ∧ (ctxRevert st env).1.dirty = (updateModel st contents).dirty := by
  unfold ctxRevert
  rw [hfetch]
  dsimp only
  split
  · exact ⟨rfl, rfl⟩
  · rw [updateContentsModel_fst]
    exact ⟨rfl, rfl⟩

/-- C5 -- loading or reverting a text-format document converts every `\r\n`
and lone `\r` in the fetched content to `\n` before populating the model (the
populated content holds no `\r` at all and is unchanged when none occurred),
and marks the model dirty exactly when the content held a `\r`; fetched
content `"a\r\nb"` yields model content `"a\nb"` with `dirty = true`. -/
theorem load_revert_line_endings (st : ContextState) (env : Env)
    (contents : ContentsModel) (s : String)
    (hfetch : env.revertFetch = .ok contents)
    (hfmt : contents.format ≠ "json")
    (hcontent : contents.content = some s) :
    ((ctxRevert st env).1.modelContent.data.contains '\r' = false)
    ∧ ((ctxRevert st env).1.dirty = s.data.contains '\r')
    ∧ (s.data.contains '\r' = false → (ctxRevert st env).1.modelContent = s)
    ∧ (s = "a\r\nb" →
        (ctxRevert st env).1.modelContent = "a\nb"
        ∧ (ctxRevert st env).1.dirty = true) := by
  obtain ⟨hmc, hd⟩ := ctxRevert_model st env contents hfetch
  rw [updateModel_text st contents s hfmt hcontent] at hmc hd
  by_cases hcr : s.data.contains '\r'
  · rw [if_pos hcr] at hmc hd
    refine ⟨?_, ?_, ?_, ?_⟩
    · rw [hmc]
      unfold convertLineEndingsStr
      simpa using convertLineEndings_no_cr s.data
    · rw [hd, hcr]
    · intro hfalse
      rw [hcr] at hfalse
      exact absurd hfalse (by simp)
    · intro hs
      subst hs
      refine ⟨?_, by rw [hd]⟩
      rw [hmc]
      exact (by decide : convertLineEndingsStr "a\r\nb" = "a\nb")
  · rw [if_neg hcr] at hmc hd
    have hcr' : s.data.contains '\r' = false := by
      simpa using hcr
    refine ⟨?_, ?_, fun _ => hmc, ?_⟩
    · rw [hmc]; exact hcr'
    · rw [hd, hcr']
    · intro hs
      subst hs
      rw [(by decide : ("a\r\nb" : String).data.contains '\r' = true)] at hcr'
      exact absurd hcr' (by simp)

/-- Instantiation of `load_revert_line_endings`: reverting to fetched text
content `"a\r\nb"` yields model content `"a\nb"` and a dirty model. -/
theorem load_revert_line_endings_instance :
    (ctxRevert sampleState
        { sampleEnv with
          revertFetch := .ok { sampleModel with content := some "a\r\nb" } }).1.modelContent
      = "a\nb"
    ∧ (ctxRevert sampleState
        { sampleEnv with
          revertFetch := .ok { sampleModel with content := some "a\r\nb" } }).1.dirty
      = true := by
  exact (load_revert_line_endings sampleState
    { sampleEnv with
      revertFetch := .ok { sampleModel with content := some "a\r\nb" } }
    { sampleModel with content := some "a\r\nb" } "a\r\nb"
    rfl (by decide) rfl).2.2.2 rfl

@[simp] theorem Effects.app_writes (a b : Effects) :
    (a.app b).writes = a.writes ++ b.writes := rfl

@[simp] theorem Effects.app_checkpointsCreated (a b : Effects) :
    (a.app b).checkpointsCreated = a.checkpointsCreated + b.checkpointsCreated := rfl

@[simp] theorem Effects.app_conflictDialogs (a b : Effects) :
    (a.app b).conflictDialogs = a.conflictDialogs + b.conflictDialogs := rfl

@[simp] theorem Effects.app_fileChangedEmits (a b : Effects) :
    (a.app b).fileChangedEmits = a.fileChangedEmits ++ b.fileChangedEmits := rfl

@[simp] theorem Effects.app_errorTitles (a b : Effects) :
    (a.app b).errorTitles = a.errorTitles ++ b.errorTitles := rfl

theorem maybeCheckpoint_of_checkpointed (st : ContextState) (env : Env)
    (h : st.hasCheckpointed = true) : maybeCheckpoint st env = .ok (st, 0) := by
  unfold maybeCheckpoint
  rw [h]
  simp

theorem maybeCheckpoint_ok_cases (st : ContextState) (env : Env)
    (st' : ContextState) (n : Nat)
    (h : maybeCheckpoint st env = .ok (st', n)) :
    (st' = st ∧ n = 0)
    ∨ (st' = { st with hasCheckpointed := true } ∧ n = 1) := by
  unfold maybeCheckpoint at h
  split at h
  · obtain ⟨rfl, rfl⟩ := Prod.mk.inj (Except.ok.inj h)
    exact .inl ⟨rfl, rfl⟩
  · split at h
    · split at h
      · split at h
        · obtain ⟨rfl, rfl⟩ := Prod.mk.inj (Except.ok.inj h)
          exact .inr ⟨rfl, rfl⟩
        · split at h
          · obtain ⟨rfl, rfl⟩ := Prod.mk.inj (Except.ok.inj h)
            exact .inl ⟨rfl, rfl⟩
          · exact absurd h (by simp)
      · obtain ⟨rfl, rfl⟩ := Prod.mk.inj (Except.ok.inj h)
        exact .inl ⟨rfl, rfl⟩
    · split at h
      · obtain ⟨rfl, rfl⟩ := Prod.mk.inj (Except.ok.inj h)
        exact .inl ⟨rfl, rfl⟩
      · exact absurd h (by simp)

theorem ctxSaveInner_cases (st : ContextState) (env : Env) :
    (∃ e, ctxSaveInner st env = (st, {}, .error (.jsError e)))
    ∨ ∃ st' n, maybeCheckpoint st env = .ok (st', n)
        ∧ ctxSaveInner st env
          = (st',
             { writes := [(st'.path, st'.modelContent)], checkpointsCreated := n },
             match env.saveResult with
             | .ok m => .ok (some m)
             | .error e => .error (.jsError e)) := by
  unfold ctxSaveInner
  cases hmc : maybeCheckpoint st env with
  | error e => exact .inl ⟨e, rfl⟩
  | ok p =>
    obtain ⟨st', n⟩ := p
    refine .inr ⟨st', n, rfl, ?_⟩
    cases env.saveResult <;> rfl

theorem ctxSaveInner_of_checkpointed (st : ContextState) (env : Env)
    (h : st.hasCheckpointed = true) :
    ctxSaveInner st env
      = (st, { writes := [(st.path, st.modelContent)], checkpointsCreated := 0 },
         match env.saveResult with
         | .ok m => .ok (some m)
         | .error e => .error (.jsError e)) := by
  unfold ctxSaveInner
  rw [maybeCheckpoint_of_checkpointed st env h]
  cases env.saveResult <;> rfl

theorem ctxSaveInner_dialogs (st : ContextState) (env : Env) :
    (ctxSaveInner st env).2.1.conflictDialogs = 0 := by
  rcases ctxSaveInner_cases st env with ⟨e, h⟩ | ⟨st', n, _, h⟩ <;> rw [h]

theorem ctxSaveInner_state (st : ContextState) (env : Env) :
    (ctxSaveInner st env).1 = st
    ∨ (ctxSaveInner st env).1 = { st with hasCheckpointed := true } := by
  rcases ctxSaveInner_cases st env with ⟨e, h⟩ | ⟨st', n, hmc, h⟩
  · rw [h]; exact .inl rfl
  · rw [h]
    rcases maybeCheckpoint_ok_cases st env st' n hmc with ⟨rfl, _⟩ | ⟨rfl, _⟩
    · exact .inl rfl
    · exact .inr rfl

theorem ctxSaveInner_writes_path (st : ContextState) (env : Env) :
    ∀ w ∈ (ctxSaveInner st env).2.1.writes, w.1 = st.path := by
  rcases ctxSaveInner_cases st env with ⟨e, h⟩ | ⟨st', n, hmc, h⟩ <;> rw [h]
  · intro w hw
    exact absurd hw (by simp)
  · intro w hw
    simp only [List.mem_singleton] at hw
    subst hw
    rcases maybeCheckpoint_ok_cases st env st' n hmc with ⟨rfl, _⟩ | ⟨rfl, _⟩ <;> rfl

theorem updateModel_fields (st : ContextState) (contents : ContentsModel) :
    (updateModel st contents).path = st.path
    ∧ (updateModel st contents).hasCheckpointed = st.hasCheckpointed
    ∧ (updateModel st contents).isDisposed = st.isDisposed
    ∧ (updateModel st contents).contentsModel = st.contentsModel := by
  unfold updateModel
  dsimp only
  split
  · exact ⟨rfl, rfl, rfl, rfl⟩
  · split <;> exact ⟨rfl, rfl, rfl, rfl⟩

theorem ctxRevert_effects (st : ContextState) (env : Env) :
    (ctxRevert st env).2.writes = []
    ∧ (ctxRevert st env).2.conflictDialogs = 0
    ∧ (ctxRevert st env).2.checkpointsCreated = 0 := by
  unfold ctxRevert
  cases env.revertFetch with
  | error e => exact ⟨rfl, rfl, rfl⟩
  | ok contents =>
    dsimp only
    split
    · exact ⟨rfl, rfl, rfl⟩
    · exact ⟨rfl, rfl, rfl⟩

theorem ctxRevert_state (st : ContextState) (env : Env) :
    (ctxRevert st env).1.path = st.path
    ∧ (ctxRevert st env).1.hasCheckpointed = st.hasCheckpointed := by
  unfold ctxRevert
  cases env.revertFetch with
  | error e => exact ⟨rfl, rfl⟩
  | ok contents =>
    dsimp only
    obtain ⟨h1, h2, h3, h4⟩ := updateModel_fields st contents
    split
    · exact ⟨h1, h2⟩
    · rw [updateContentsModel_fst]
      exact ⟨h1, h2⟩

theorem timeConflict_dialogs (st : ContextState) (env : Env)
    (remote : ContentsModel) :
    (timeConflict st env remote).2.1.conflictDialogs = 1 := by
  unfold timeConflict
  dsimp only
  split
  · rfl
  · cases env.dialogChoice
    · rfl
    · simp [(ctxRevert_effects st env).2.1]
    · simp [ctxSaveInner_dialogs st env]

theorem saveBranch_dialogs (st : ContextState) (env : Env)
    (remote : ContentsModel)
    (hcol : st.isCollaborative = false)
    (hdis : st.isDisposed = false)
    (hfetch : env.fetchMeta = .ok remote) :
    (saveBranch st env).2.1.conflictDialogs
      = if conflictCheck st.contentsModel.last_modified remote.last_modified
        then 1 else 0 := by
  unfold saveBranch
  rw [hcol]
  rw [if_pos (show (!false : Bool) = true from rfl)]
  unfold maybeSave
  rw [hfetch]
  dsimp only
  rw [if_neg (show ¬ st.isDisposed = true by simp [hdis])]
  by_cases hc : conflictCheck st.contentsModel.last_modified remote.last_modified = true
  · rw [if_pos hc, if_pos hc]
    exact timeConflict_dialogs st env remote
  · rw [if_neg hc, if_neg hc]
    exact ctxSaveInner_dialogs st env

theorem ctxSave_eff_eq (st : ContextState) (env : Env) :
    (ctxSave st env).2.conflictDialogs = (saveBranch st env).2.1.conflictDialogs
    ∧ (ctxSave st env).2.writes = (saveBranch st env).2.1.writes
    ∧ (ctxSave st env).2.checkpointsCreated
        = (saveBranch st env).2.1.checkpointsCreated := by
  unfold ctxSave
  dsimp only
  split
  · simp
  · split
    · exact ⟨rfl, rfl, rfl⟩
    · split <;> simp

theorem ctxSave_hasCheckpointed (st : ContextState) (env : Env) :
    (ctxSave st env).1.hasCheckpointed = (saveBranch st env).1.hasCheckpointed := by
  unfold ctxSave
  dsimp only
  split
  · rfl
  · split
    · rfl
    · split
      · rfl
      · rw [updateContentsModel_fst]

theorem saveBranch_chk (st : ContextState) (env : Env)
    (h : st.hasCheckpointed = true) :
    (saveBranch st env).1.hasCheckpointed = true
    ∧ (saveBranch st env).2.1.checkpointsCreated = 0 := by
  unfold saveBranch
  split
  · unfold maybeSave
    cases hf : env.fetchMeta with
    | error e =>
      dsimp only
      split
      · rw [ctxSaveInner_of_checkpointed st env h]
        exact ⟨h, rfl⟩
      · exact ⟨h, rfl⟩
    | ok m =>
      dsimp only
      split
      · exact ⟨h, rfl⟩
      · split
        · unfold timeConflict
          dsimp only
          split
          · exact ⟨h, rfl⟩
          · cases env.dialogChoice
            · exact ⟨h, rfl⟩
            · refine ⟨?_, ?_⟩
              · rw [(ctxRevert_state st env).2, h]
              · simp [(ctxRevert_effects st env).2.2]
            · rw [ctxSaveInner_of_checkpointed st env h]
              exact ⟨h, by simp [Effects.app]⟩
        · rw [ctxSaveInner_of_checkpointed st env h]
          exact ⟨h, rfl⟩
  · rw [ctxSaveInner_of_checkpointed st env h]
    exact ⟨h, rfl⟩

theorem ctxSave_chk (st : ContextState) (env : Env)
    (h : st.hasCheckpointed = true) :
    (ctxSave st env).1.hasCheckpointed = true
    ∧ (ctxSave st env).2.checkpointsCreated = 0 := by
  obtain ⟨h1, h2⟩ := saveBranch_chk st env h
  exact ⟨by rw [ctxSave_hasCheckpointed, h1],
    by rw [(ctxSave_eff_eq st env).2.2, h2]⟩

theorem ctxSaveN_chk (st : ContextState) (envs : List Env)
    (h : st.hasCheckpointed = true) : (ctxSaveN st envs).2 = 0 := by
  induction envs generalizing st with
  | nil => rfl
  | cons env rest ih =>
    obtain ⟨h1, h2⟩ := ctxSave_chk st env h
    unfold ctxSaveN
    rw [h2, ih _ h1]

theorem ctxSave_first_checkpoint (st : ContextState) (env : Env)
    (m : ContentsModel) (c : Checkpoint)
    (hcol : st.isCollaborative = false)
    (hdis : st.isDisposed = false)
    (hfresh : st.hasCheckpointed = false)
    (hw : st.contentsModel.writable = true)
    (hfetch : env.fetchMeta = .ok m)
    (hnoc : conflictCheck st.contentsModel.last_modified m.last_modified = false)
    (hlist : env.listCheckpoints = .ok [])
    (hcreate : env.createCheckpoint = .ok c) :
    (ctxSave st env).2.checkpointsCreated = 1
    ∧ (ctxSave st env).1.hasCheckpointed = true := by
  have hmc : maybeCheckpoint st env
      = .ok ({ st with hasCheckpointed := true }, 1) := by
    unfold maybeCheckpoint
    rw [if_neg (show ¬ (!st.contentsModel.writable || st.hasCheckpointed) = true
      by simp [hw, hfresh])]
    rw [hlist]
    dsimp only
    rw [if_pos (show (!st.isDisposed && (List.length [] == 0)
        && st.contentsModel.writable) = true by simp [hdis, hw])]
    rw [hcreate]
  have hinner : (ctxSaveInner st env).1 = { st with hasCheckpointed := true }
      ∧ (ctxSaveInner st env).2.1.checkpointsCreated = 1 := by
    unfold ctxSaveInner
    rw [hmc]
    cases env.saveResult <;> exact ⟨rfl, rfl⟩
  have hbranch : saveBranch st env = ctxSaveInner st env := by
    unfold saveBranch
    rw [hcol, if_pos (show (!false : Bool) = true from rfl)]
    unfold maybeSave
    rw [hfetch]
    dsimp only
    rw [if_neg (show ¬ st.isDisposed = true by simp [hdis])]
    rw [if_neg (show ¬ conflictCheck st.contentsModel.last_modified
        m.last_modified = true by simp [hnoc])]
  refine ⟨?_, ?_⟩
  · rw [(ctxSave_eff_eq st env).2.2, hbranch, hinner.2]
  · rw [ctxSave_hasCheckpointed, hbranch, hinner.1]

theorem saveBranch_writes_path (st : ContextState) (env : Env) :
    ∀ w ∈ (saveBranch st env).2.1.writes, w.1 = st.path := by
  unfold saveBranch
  split
  · unfold maybeSave
    cases hf : env.fetchMeta with
    | error e =>
      dsimp only
      split
      · exact ctxSaveInner_writes_path st env
      · intro w hw
        exact absurd hw (by simp)
    | ok m =>
      dsimp only
      split
      · intro w hw
        exact absurd hw (by simp)
      · split
        · unfold timeConflict
          dsimp only
          split
          · intro w hw
            exact absurd hw (by simp)
          · cases env.dialogChoice
            · intro w hw
              exact absurd hw (by simp)
            · intro w hw
              simp only [Effects.app_writes] at hw
              rw [(ctxRevert_effects st env).1] at hw
              exact absurd hw (by simp)
            · intro w hw
              simp only [Effects.app_writes] at hw
              exact ctxSaveInner_writes_path st env w (by simpa using hw)
        · exact ctxSaveInner_writes_path st env
  · exact ctxSaveInner_writes_path st env

theorem ctxSave_writes_path (st : ContextState) (env : Env) :
    ∀ w ∈ (ctxSave st env).2.writes, w.1 = st.path := by
  intro w hw
  rw [(ctxSave_eff_eq st env).2.1] at hw
  exact saveBranch_writes_path st env w hw

/-- C1 -- on a non-collaborative, non-disposed save whose cached metadata has
`last_modified = T` and whose remote metadata fetch reports
`last_modified = Td`, the three-way conflict dialog is shown exactly when
`Td - T > 500` ms; at `Td = T + 400` the save proceeds directly to the write,
at `Td = T + 600` the conflict dialog is shown. -/
theorem save_conflict_threshold (st : ContextState) (env : Env)
    (remote : ContentsModel) (T Td : Int)
    (hcol : st.isCollaborative = false)
    (hdis : st.isDisposed = false)
    (hchk : st.hasCheckpointed = true)
    (hT : st.contentsModel.last_modified = some T)
    (hfetch : env.fetchMeta = .ok remote)
    (hTd : remote.last_modified = some Td) :
    ((ctxSave st env).2.conflictDialogs = 1 ↔ Td - T > 500)
    ∧ (Td = T + 400 →
        (ctxSave st env).2.conflictDialogs = 0
        ∧ (ctxSave st env).2.writes = [(st.path, st.modelContent)])
    ∧ (Td = T + 600 → (ctxSave st env).2.conflictDialogs = 1) := by
  have hcc : conflictCheck st.contentsModel.last_modified remote.last_modified
      = decide (Td - T > 500) := by
    rw [hT, hTd]
    rfl
  have hd : (ctxSave st env).2.conflictDialogs
      = if Td - T > 500 then 1 else 0 := by
    rw [(ctxSave_eff_eq st env).1,
      saveBranch_dialogs st env remote hcol hdis hfetch, hcc]
    by_cases h : Td - T > 500
    · rw [if_pos (by simp [h]), if_pos h]
    · rw [if_neg (by simp [h]), if_neg h]
  refine ⟨?_, ?_, ?_⟩
  · rw [hd]
    by_cases h : Td - T > 500
    · simp [h]
    · simp [h]
  · intro h400
    have hlt : ¬ Td - T > 500 := by omega
    constructor
    · rw [hd, if_neg hlt]
    · rw [(ctxSave_eff_eq st env).2.1]
      have hbranch : saveBranch st env = ctxSaveInner st env := by
        unfold saveBranch
        rw [hcol, if_pos (show (!false : Bool) = true from rfl)]
        unfold maybeSave
        rw [hfetch]
        dsimp only
        rw [if_neg (show ¬ st.isDisposed = true by simp [hdis])]
        rw [if_neg (show ¬ conflictCheck st.contentsModel.last_modified
            remote.last_modified = true by simp [hcc, hlt])]
      rw [hbranch, ctxSaveInner_of_checkpointed st env hchk]
  · intro h600
    rw [hd, if_pos (by omega)]

/-- Instantiation of `save_conflict_threshold` at the sample context (cached
`last_modified = 0`) and a remote timestamp of 600 ms: the dialog is
shown. -/
theorem save_conflict_threshold_instance :
    ((ctxSave sampleState sampleEnv).2.conflictDialogs = 1
      ↔ (600 : Int) - 0 > 500)
    ∧ ((600 : Int) = 0 + 400 →
        (ctxSave sampleState sampleEnv).2.conflictDialogs = 0
        ∧ (ctxSave sampleState sampleEnv).2.writes
            = [(sampleState.path, sampleState.modelContent)])
    ∧ ((600 : Int) = 0 + 600 →
        (ctxSave sampleState sampleEnv).2.conflictDialogs = 1) := by
  exact save_conflict_threshold sampleState sampleEnv remote600 0 600
    rfl rfl rfl rfl rfl rfl

/-- C8 -- during the maybe-save branch (non-collaborative, fetch of remote
metadata fails), a 404 failure is not an error: the write is still issued and
no error dialog opens; any non-404 failure aborts the write and is routed to
the `File Save Error` handler. -/
theorem maybe_save_404_recreates (st : ContextState) (env : Env) (e : JsError)
    (m : ContentsModel)
    (hcol : st.isCollaborative = false)
    (hchk : st.hasCheckpointed = true)
    (hdis : st.isDisposed = false)
    (hfetch : env.fetchMeta = .error e)
    (hsave : env.saveResult = .ok m) :
    (e.status = some 404 →
      (ctxSave st env).2.writes = [(st.path, st.modelContent)]
      ∧ (ctxSave st env).2.errorTitles = [])
    ∧ (e.status ≠ some 404 →
      (ctxSave st env).2.writes = []
      ∧ (ctxSave st env).2.errorTitles = ["File Save Error"]) := by
  constructor
  · intro h404
    have hinner := ctxSaveInner_of_checkpointed st env hchk
    rw [hsave] at hinner
    have hbranch : saveBranch st env
        = (st, { writes := [(st.path, st.modelContent)],
                 checkpointsCreated := 0 }, .ok (some m)) := by
      unfold saveBranch
      rw [hcol, if_pos (show (!false : Bool) = true from rfl)]
      unfold maybeSave
      rw [hfetch]
      dsimp only
      rw [if_pos h404]
      exact hinner
    unfold ctxSave
    rw [hbranch]
    dsimp only
    rw [if_neg (show ¬ st.isDisposed = true by simp [hdis])]
    dsimp only
    constructor <;> simp
  · intro h404
    have hbranch : saveBranch st env = (st, {}, .error (.jsError e)) := by
      unfold saveBranch
      rw [hcol, if_pos (show (!false : Bool) = true from rfl)]
      unfold maybeSave
      rw [hfetch]
      dsimp only
      rw [if_neg h404]
    unfold ctxSave
    rw [hbranch]
    dsimp only
    constructor <;> simp

/-- Instantiation of `maybe_save_404_recreates`: a 404 metadata fetch still
writes and surfaces no error. -/
theorem maybe_save_404_recreates_instance :
    (ctxSave sampleState
        { sampleEnv with
          fetchMeta := .error { status := some 404, message := "nf" } }).2.writes
      = [(sampleState.path, sampleState.modelContent)]
    ∧ (ctxSave sampleState
        { sampleEnv with
          fetchMeta := .error { status := some 404, message := "nf" } }).2.errorTitles
      = [] := by
  exact (maybe_save_404_recreates sampleState
    { sampleEnv with
      fetchMeta := .error { status := some 404, message := "nf" } }
    { status := some 404, message := "nf" }
    { sampleModel with last_modified := some 2000 }
    rfl rfl rfl rfl rfl).1 rfl

/-- C3 -- on a fresh, writable, non-disposed, non-collaborative context whose
first save lists no checkpoints and creates one, a sequence of `1 + N`
saves creates exactly one checkpoint for every `N` and every later
environment; moreover (second part) a 403 when listing checkpoints is
swallowed: that save still writes, creates no checkpoint and surfaces no
error. -/
theorem checkpoint_once_across_saves (st : ContextState) (env : Env)
    (envs : List Env) (m : ContentsModel) (c : Checkpoint)
    (hcol : st.isCollaborative = false)
    (hdis : st.isDisposed = false)
    (hfresh : st.hasCheckpointed = false)
    (hw : st.contentsModel.writable = true)
    (hfetch : env.fetchMeta = .ok m)
    (hnoc : conflictCheck st.contentsModel.last_modified m.last_modified = false)
    (hlist : env.listCheckpoints = .ok [])
    (hcreate : env.createCheckpoint = .ok c) :
    (ctxSaveN st (env :: envs)).2 = 1
    ∧ (∀ (st' : ContextState) (env' : Env) (e : JsError) (m' : ContentsModel),
        st'.isCollaborative = false → st'.isDisposed = false →
        env'.fetchMeta = .ok m' →
        conflictCheck st'.contentsModel.last_modified m'.last_modified = false →
        env'.listCheckpoints = .error e → e.status = some 403 →
        env'.saveResult = .ok m' →
        (ctxSave st' env').2.checkpointsCreated = 0
        ∧ (ctxSave st' env').2.errorTitles = []
        ∧ (ctxSave st' env').2.writes = [(st'.path, st'.modelContent)]) := by
  constructor
  · obtain ⟨hcc1, hflag⟩ := ctxSave_first_checkpoint st env m c
      hcol hdis hfresh hw hfetch hnoc hlist hcreate
    unfold ctxSaveN
    rw [hcc1, ctxSaveN_chk (ctxSave st env).1 envs hflag]
  · intro st' env' e m' hcol' hdis' hfetch' hnoc' hlist' h403 hsave'
    have hmc : maybeCheckpoint st' env' = .ok (st', 0) := by
      unfold maybeCheckpoint
      split
      · rfl
      · rw [hlist']
        dsimp only
        rw [if_pos h403]
    have hinner : ctxSaveInner st' env'
        = (st', { writes := [(st'.path, st'.modelContent)],
                  checkpointsCreated := 0 }, .ok (some m')) := by
      unfold ctxSaveInner
      rw [hmc, hsave']
    have hbranch : saveBranch st' env'
        = (st', { writes := [(st'.path, st'.modelContent)],
                  checkpointsCreated := 0 }, .ok (some m')) := by
      unfold saveBranch
      rw [hcol', if_pos (show (!false : Bool) = true from rfl)]
      unfold maybeSave
      rw [hfetch']
      dsimp only
      rw [if_neg (show ¬ st'.isDisposed = true by simp [hdis'])]
      rw [if_neg (show ¬ conflictCheck st'.contentsModel.last_modified
          m'.last_modified = true by simp [hnoc'])]
      exact hinner
    unfold ctxSave
    rw [hbranch]
    dsimp only
    rw [if_neg (show ¬ st'.isDisposed = true by simp [hdis'])]
    dsimp only
    refine ⟨by simp, by simp, by simp⟩

/-- Instantiation of `checkpoint_once_across_saves`: three sequential saves
on the fresh sample context create exactly one checkpoint. -/
theorem checkpoint_once_across_saves_instance :
    (ctxSaveN { sampleState with hasCheckpointed := false }
      [{ sampleEnv with fetchMeta := .ok sampleModel },
       { sampleEnv with fetchMeta := .ok sampleModel },
       { sampleEnv with fetchMeta := .ok sampleModel }]).2 = 1 := by
  exact (checkpoint_once_across_saves
    { sampleState with hasCheckpointed := false }
    { sampleEnv with fetchMeta := .ok sampleModel }
    [{ sampleEnv with fetchMeta := .ok sampleModel },
     { sampleEnv with fetchMeta := .ok sampleModel }]
    sampleModel { id := "c1", last_modified := some 0 }
    rfl rfl rfl rfl rfl rfl rfl rfl).1

/-- C7 -- a rename notification whose old path equals the context's path and
whose new path is non-empty updates the context's path, re-points the
session, replaces the cached contents model by a content-free copy of the
notification's new value, resets `hasCheckpointed` and emits `pathChanged`;
every write issued by any subsequent `save()` targets the new path. -/
theorem rename_notification_consistency (st : ContextState)
    (change : FileChangeArgs) (nv : ContentsModel)
    (htype : change.type = "rename")
    (hnv : change.newValue = some nv)
    (hnp : nv.path ≠ "")
    (hold : change.oldPath = some st.path) :
    (onFileChanged st change).1.path = nv.path
    ∧ (onFileChanged st change).1.sessionPath = nv.path
    ∧ (onFileChanged st change).1.contentsModel = contentFreeCopy nv
    ∧ (onFileChanged st change).1.hasCheckpointed = false
    ∧ (onFileChanged st change).2.2 = [nv.path]
    ∧ ∀ (env : Env) (w : String × String),
        w ∈ (ctxSave (onFileChanged st change).1 env).2.writes
        → w.1 = nv.path := by
  have hred : (onFileChanged st change).1
        = { st with
            sessionPath := nv.path
            sessionName := basename (localPath nv.path)
            path := nv.path
            contentsModel := contentFreeCopy nv
            hasCheckpointed := false }
      ∧ (onFileChanged st change).2.2 = [nv.path] := by
    unfold onFileChanged
    rw [htype]
    rw [if_neg (show ¬ ("rename" : String) ≠ "rename" by simp)]
    rw [hnv]
    dsimp only
    rw [if_pos ⟨hnp, hold⟩]
    rw [updateContentsModel_fst]
    exact ⟨rfl, rfl⟩
  obtain ⟨hst, hemit⟩ := hred
  refine ⟨by rw [hst], by rw [hst], by rw [hst], by rw [hst], hemit, ?_⟩
  intro env w hw
  have := ctxSave_writes_path (onFileChanged st change).1 env w hw
  rw [hst] at this
  exact this

/-- Instantiation of `rename_notification_consistency` at the sample context
renamed from `notes.txt` to `notes2.txt`. -/
theorem rename_notification_consistency_instance :
    (onFileChanged sampleState
      { type := "rename"
        oldPath := some "notes.txt"
        newValue := some { sampleModel with path := "notes2.txt" } }).1.path
      = "notes2.txt" := by
  exact (rename_notification_consistency sampleState
    { type := "rename"
      oldPath := some "notes.txt"
      newValue := some { sampleModel with path := "notes2.txt" } }
    { sampleModel with path := "notes2.txt" }
    rfl rfl (by decide) rfl).1

/-- The sample conflict environment: the remote metadata is 600 ms ahead and
the user answers the conflict dialog with Cancel. -/
def cancelEnv : Env := { sampleEnv with dialogChoice := .cancel }

/-- C2 -- evaluation of `save()` at a dirty context whose conflict dialog is
answered with Cancel: the dialog is shown and no write is issued, and the
cached contents model is indeed left unchanged, but the model's dirty flag is
cleared to `false` (the cancelled dialog resolves `undefined`, which flows
into the post-save continuation) and a `File Save Error` dialog opens (the
continuation's `_updateContentsModel(undefined)` throws). This contradicts
the claim that `dirty` remains true and that no state change occurs. -/
theorem conflict_cancel_clears_dirty :
    sampleState.dirty = true
    ∧ (ctxSave sampleState cancelEnv).2.conflictDialogs = 1
    ∧ (ctxSave sampleState cancelEnv).2.writes = []
    ∧ (ctxSave sampleState cancelEnv).1.contentsModel = sampleState.contentsModel
    ∧ (ctxSave sampleState cancelEnv).1.dirty = false
    ∧ (ctxSave sampleState cancelEnv).2.errorTitles = ["File Save Error"] := by
  decide

end JLab
